import Mathlib

/-!
# Verification of the Echony data-storage ETL scripts

Shallow embedding of the two Python jobs
(`.github/scripts/update_data.py` and `.github/scripts/collect_data.py`)
and proofs about the data-transformation functions
(`convert_to_china_timezone`, `process_latest_data`,
`process_historical_metrics`, `process_summary`, `process_cached_data`,
`save_json`), plus control-flow models of the two `main` entry points
(connection lifetime, directory creation).

Numeric metric values are modelled as rationals; timestamps are modelled
as seconds since the Unix epoch together with an optional fixed-offset
timezone, mirroring pandas' naive / tz-aware datetime values.
-/

namespace Echony

/-- A pandas timestamp.  `val` is the wall-clock seconds count for a naive
value and the absolute UTC instant for a tz-aware value; `tz` is `none`
for a naive value and `some off` for a fixed-offset-aware value with
offset `off` seconds east of UTC. -/
structure PyTime where
  val : Int
  tz : Option Int
deriving DecidableEq

/-- The wall-clock seconds a timestamp displays (what `strftime` renders):
naive values display `val`; aware values display the instant shifted by
the offset. -/
def PyTime.displaySecs (t : PyTime) : Int :=
  match t.tz with
  | none => t.val
  | some off => t.val + off

/-- `Series.dt.tz_localize(pytz.UTC)` on one element: attaches UTC to a
naive value (instant unchanged) and raises (`none`) on an already
tz-aware value ("Already tz-aware, use tz_convert to convert"). -/
def tz_localize_utc (t : PyTime) : Option PyTime :=
  match t.tz with
  | none => some ⟨t.val, some 0⟩
  | some _ => none

/-- `Series.dt.tz_convert(Asia/Shanghai)` on one element: re-expresses a
tz-aware value in the UTC+8 fixed offset (28800 s), keeping the instant;
raises (`none`) on a naive value. -/
def tz_convert_shanghai (t : PyTime) : Option PyTime :=
  match t.tz with
  | none => none
  | some _ => some ⟨t.val, some 28800⟩

/-- Two-digit zero padding used by `strftime`. -/
def pad2 (n : Nat) : String :=
  if n < 10 then "0" ++ toString n else toString n

/-- Proleptic-Gregorian civil date from a day count since 1970-01-01
(Howard Hinnant's `civil_from_days`, restricted to non-negative eras,
which covers every post-1970 instant the pipeline handles). -/
def civilFromDays (z : Nat) : Nat × Nat × Nat :=
  let z' := z + 719468
  let era := z' / 146097
  let doe := z' % 146097
  let yoe := (doe - doe / 1460 + doe / 36524 - doe / 146096) / 365
  let y := yoe + era * 400
  let doy := doe - (365 * yoe + yoe / 4 - yoe / 100)
  let mp := (5 * doy + 2) / 153
  let d := doy - (153 * mp + 2) / 5 + 1
  let m := if mp < 10 then mp + 3 else mp - 9
  (if m ≤ 2 then y + 1 else y, m, d)

/-- `strftime('%Y-%m-%d %H:%M:%S')` on a wall-clock seconds count. -/
def fmtSecs (secs : Nat) : String :=
  let days := secs / 86400
  let sod := secs % 86400
  let ymd := civilFromDays days
  toString ymd.1 ++ "-" ++ pad2 ymd.2.1 ++ "-" ++ pad2 ymd.2.2 ++ " " ++
    pad2 (sod / 3600) ++ ":" ++ pad2 (sod % 3600 / 60) ++ ":" ++ pad2 (sod % 60)

/-- `strftime('%Y-%m-%d %H:%M:%S')` of a timestamp: renders the displayed
wall clock. -/
def PyTime.strftime (t : PyTime) : String :=
  fmtSecs t.displaySecs.toNat

/-- Lookup in an association list, mirroring reading a Python dict /
pandas row cell by key. -/
def colVal (vals : List (String × Rat)) (c : String) : Rat :=
  ((vals.find? (fun p => p.1 == c)).map (fun p => p.2)).getD 0

/-- One row of the `material_data` result set: the `ID` column, the
`record_date` column and the remaining (metric) columns as named
rational values. -/
structure Row where
  ID : Int
  record_date : PyTime
  vals : List (String × Rat)
deriving DecidableEq

/-- Reading metric cell `c` of a row (`df.iloc[i][c]`). -/
def Row.getCol (r : Row) (c : String) : Rat :=
  colVal r.vals c

/-- The in-memory DataFrame: the ordered column-name list
(`df.columns`, containing `ID` and `record_date` as well as the metric
columns) and the ordered rows. -/
structure DF where
  columns : List String
  rows : List Row
deriving DecidableEq

/-- The metric columns: `df.columns` without `ID` and `record_date`
(the filter every transformer applies). -/
def metricCols (df : DF) : List String :=
  df.columns.filter (fun c => !(c == "ID" || c == "record_date"))

/-- Option-valued traversal of a list (how a whole-column pandas
operation fails if it fails on any element). -/
def mapOpt {α β : Type} (f : α → Option β) : List α → Option (List β)
  | [] => some []
  | x :: xs =>
    match f x, mapOpt f xs with
    | some y, some ys => some (y :: ys)
    | _, _ => none

/-- `convert_to_china_timezone(df)`:
`df['record_date'] = pd.to_datetime(df['record_date']).dt.tz_localize(pytz.UTC).dt.tz_convert(china_tz)`.
Localizes every `record_date` to UTC and converts it to the UTC+8
offset; raises (`none`) if any value is already tz-aware. -/
def convert_to_china_timezone (df : DF) : Option DF :=
  (mapOpt
     (fun r =>
       ((tz_localize_utc r.record_date).bind tz_convert_shanghai).map
         (fun t => { r with record_date := t }))
     df.rows).map
    (fun rs => DF.mk df.columns rs)

/-- Output record of `process_latest_data`: `df.iloc[0].to_dict()` with
`record_date` re-rendered as a string. -/
structure LatestOut where
  ID : Int
  record_date : String
  vals : List (String × Rat)
deriving DecidableEq

/-- `process_latest_data(df)`: takes row 0 (raising on an empty frame,
modelled by `none`) and formats its timestamp. -/
def process_latest_data (df : DF) : Option LatestOut :=
  df.rows.head?.map
    (fun r => { ID := r.ID, record_date := r.record_date.strftime, vals := r.vals })

/-- A JSON-ish cell of a metric / timestamp sequence: the metric lists
hold numbers, the `timestamps` list holds strings. -/
inductive Cell where
  | num : Rat → Cell
  | str : String → Cell
deriving DecidableEq

/-- Python dict assignment `d[k] = v` on an insertion-ordered dict:
overwrite in place if the key exists, else append. -/
def dictInsert {α : Type} (d : List (String × α)) (k : String) (v : α) :
    List (String × α) :=
  if d.any (fun p => p.1 == k) then
    d.map (fun p => if p.1 == k then (k, v) else p)
  else
    d ++ [(k, v)]

/-- Python dict read `d.get(k)` on an insertion-ordered dict: the value
of the first (hence only) entry whose key matches. -/
def lookupD {α : Type} : List (String × α) → String → Option α
  | [], _ => none
  | p :: ps, k => if p.1 == k then some p.2 else lookupD ps k

/-- The column's value sequence across all rows, in row order
(`df[column].tolist()`). -/
def seqOf (df : DF) (c : String) : List Cell :=
  df.rows.map (fun r => Cell.num (r.getCol c))

/-- The formatted timestamp sequence across all rows, in row order
(`df['record_date'].dt.strftime('%Y-%m-%d %H:%M:%S').tolist()`). -/
def tsSeq (df : DF) : List Cell :=
  df.rows.map (fun r => Cell.str r.record_date.strftime)

/-- `process_historical_metrics(df)`: the loop
`for column in df.columns: if column not in ['ID', 'record_date']: metrics[column] = df[column].tolist()`
followed by the assignment `metrics['timestamps'] = ...`. -/
def process_historical_metrics (df : DF) : List (String × List Cell) :=
  let base :=
    df.columns.foldl
      (fun m c =>
        if c == "ID" || c == "record_date" then m else dictInsert m c (seqOf df c))
      []
  dictInsert base "timestamps" (tsSeq df)

/-- Insertion (descending by instant) used to model the claim scenario's
"re-sort descending by timestamp". -/
def insertDesc (r : Row) : List Row → List Row
  | [] => [r]
  | x :: xs =>
    if x.record_date.val ≤ r.record_date.val then r :: x :: xs
    else x :: insertDesc r xs

/-- Sort rows descending by timestamp instant. -/
def sortDesc (l : List Row) : List Row :=
  l.foldr insertDesc []

/-- The per-column summary dict built by `process_summary`:
`{'max': ..., 'min': ..., 'avg': ..., 'current': ...}`. -/
structure ColSummary where
  mx : Rat
  mn : Rat
  avg : Rat
  current : Rat
deriving DecidableEq

/-- The whole `summary.json` structure. -/
structure Summary where
  last_update : String
  total_records : Nat
  metrics_summary : List (String × ColSummary)
deriving DecidableEq

/-- `Series.max()` over a rational column (junk 0 on the empty list,
where pandas yields NaN; the transformers are only run on non-empty
frames). -/
def listMax : List Rat → Rat
  | [] => 0
  | x :: xs => xs.foldl max x

/-- `Series.min()` over a rational column. -/
def listMin : List Rat → Rat
  | [] => 0
  | x :: xs => xs.foldl min x

/-- `Series.mean()` over a rational column. -/
def listMean (l : List Rat) : Rat :=
  l.sum / (l.length : Rat)

/-- `df['record_date'].max()`: the timestamp with the greatest instant
(keeping the earlier element on ties). -/
def maxDate : List PyTime → Option PyTime
  | [] => none
  | t :: ts => some (ts.foldl (fun a b => if a.val < b.val then b else a) t)

/-- `process_summary(df)`: `last_update` from the max timestamp,
`total_records = len(df)`, and for every non-`ID`, non-`record_date`
column the max / min / mean over all rows and `current` from row 0
(`df.iloc[0][column]`).  `none` models the exception path on an empty
frame (`.max()` of nothing). -/
def process_summary (df : DF) : Option Summary :=
  match df.rows with
  | [] => none
  | r0 :: rest =>
    some
      { last_update :=
          (((maxDate ((r0 :: rest).map (fun r => r.record_date)))).map
            PyTime.strftime).getD "",
        total_records := (r0 :: rest).length,
        metrics_summary :=
          df.columns.foldl
            (fun m c =>
              if c == "ID" || c == "record_date" then m
              else
                dictInsert m c
                  { mx := listMax ((r0 :: rest).map (fun r => r.getCol c)),
                    mn := listMin ((r0 :: rest).map (fun r => r.getCol c)),
                    avg := listMean ((r0 :: rest).map (fun r => r.getCol c)),
                    current := r0.getCol c })
            [] }

/-- `df[df['record_date'] >= cutoff]`: keep the rows whose instant is at
least the cutoff, preserving order and columns. -/
def filterWindow (df : DF) (cutoff : Int) : DF :=
  DF.mk df.columns (df.rows.filter (fun r => decide (cutoff ≤ r.record_date.val)))

/-- One window of `process_cached_data`: filter to the trailing
`dur`-second window ending at the sampled `now` instant, then delegate
to `process_historical_metrics`. -/
def process_window (df : DF) (now dur : Int) : List (String × List Cell) :=
  process_historical_metrics (filterWindow df (now - dur))

/-- `process_cached_data(df)` with the internally sampled
`pd.Timestamp.now(Asia/Shanghai)` made explicit as the instant `now`:
the 24-hour and 30-day windows. -/
def process_cached_data (df : DF) (now : Int) :
    List (String × List Cell) × List (String × List Cell) :=
  (process_window df now 86400, process_window df now 2592000)

/-- `process_latest_data` as run at ambient clock instant `now`: the
source function never reads the clock, so the parameter is unused. -/
def process_latest_data_at (df : DF) (_now : Int) : Option LatestOut :=
  process_latest_data df

/-- `process_historical_metrics` as run at ambient clock instant `now`:
the source function never reads the clock. -/
def process_historical_metrics_at (df : DF) (_now : Int) :
    List (String × List Cell) :=
  process_historical_metrics df

/-- `process_summary` as run at ambient clock instant `now`: the source
function never reads the clock. -/
def process_summary_at (df : DF) (_now : Int) : Option Summary :=
  process_summary df

/-- `process_cached_data` as run at ambient clock instant `now`: the
source function calls `pd.Timestamp.now` itself, so its result depends
on `now`. -/
def process_cached_data_at (df : DF) (now : Int) :
    List (String × List Cell) × List (String × List Cell) :=
  process_cached_data df now

/-!
## Writer and directory model

`save_json` opens `filename` for writing and dumps JSON; opening a file
whose parent directory does not exist raises `FileNotFoundError`.  A
path is modelled as parent directory plus file name, and the filesystem
as the list of existing directories.
-/

/-- `save_json(data, filename)` on a filesystem where exactly the
directories in `dirs` exist: succeeds (returning the written path) iff
the parent directory already exists; it never creates directories. -/
def save_json (dirs : List String) (parent fname : String) : Option String :=
  if dirs.contains parent then some (parent ++ "/" ++ fname) else none

/-- The directory set after `update_data.main`'s
`os.makedirs('data/historical/archived', exist_ok=True)` and
`os.makedirs('data/cache', exist_ok=True)` (each creates all missing
ancestors as well). -/
def update_main_dirs (dirs : List String) : List String :=
  dirs ++ ["data", "data/historical", "data/historical/archived", "data/cache"]

/-- The five `save_json` calls of `update_data.main`, run after its two
`os.makedirs` calls. -/
def update_main_writes (dirs : List String) : List (Option String) :=
  [save_json (update_main_dirs dirs) "data" "latest.json",
   save_json (update_main_dirs dirs) "data/historical" "metrics.json",
   save_json (update_main_dirs dirs) "data/historical" "summary.json",
   save_json (update_main_dirs dirs) "data/cache" "hour-24.json",
   save_json (update_main_dirs dirs) "data/cache" "day-30.json"]

/-- The two file writes of `collect_data.main` (plain `open(...)` calls;
no `os.makedirs` anywhere in that job). -/
def collect_main_writes (dirs : List String) : List (Option String) :=
  [save_json dirs "data" "latest.json", save_json dirs "data" "metadata.json"]

/-!
## Connection-lifetime model

The externally visible resource events of one run of each job, as a
function of which fallible steps succeed.  `update_data.fetch_data`
wraps the query and the timezone conversion in
`try: ... finally: connection.close()`; `collect_data.main` has no
`try`/`finally` and reaches `conn.close()` only if every step before it
returns normally.
-/

/-- A resource / IO event of one job run. -/
inductive Ev where
  | connected
  | closed
  | wrote : String → Ev
deriving DecidableEq

/-- Event trace of one `update_data.main` run.  `cOk`: the connect call
succeeds; `qOk`: `pd.read_sql` succeeds; `vOk`: the timezone conversion
succeeds; `wOk`: the directory creation and the five writes succeed.
The `finally` block closes the connection right after the query/convert
attempt, before any file is written. -/
def update_run (cOk qOk vOk wOk : Bool) : List Ev :=
  if cOk = false then []
  else
    Ev.connected ::
      Ev.closed ::
        (if qOk && vOk then (if wOk then [Ev.wrote "data"] else []) else [])

/-- Event trace of one `collect_data.main` run.  `cOk`: the connect call
succeeds; `qOk`: `pd.read_sql` succeeds; `w1Ok` / `w2Ok`: the two file
writes succeed.  `conn.close()` is the final statement and runs only
when everything before it succeeded. -/
def collect_run (cOk qOk w1Ok w2Ok : Bool) : List Ev :=
  if cOk = false then []
  else
    Ev.connected ::
      (if qOk = false then []
       else if w1Ok = false then []
       else
         Ev.wrote "data/latest.json" ::
           (if w2Ok = false then []
            else [Ev.wrote "data/metadata.json", Ev.closed]))

/-!
## Concrete tables used by witnesses and counterexamples
-/

/-- The three-row scenario table from the spec's end-to-end test: UTC
2024-01-01T00:00:00, 2024-01-01T12:00:00, 2024-01-02T00:00:00 with
metric column `value` = 10, 20, 30 in ascending time order. -/
def df5 : DF :=
  DF.mk ["ID", "record_date", "value"]
    [Row.mk 1 (PyTime.mk 1704067200 none) [("value", 10)],
     Row.mk 2 (PyTime.mk 1704110400 none) [("value", 20)],
     Row.mk 3 (PyTime.mk 1704153600 none) [("value", 30)]]

/-- A three-row table already sorted descending by timestamp, with
`value` = 30, 20, 10 (newest first), timestamps naive. -/
def dfDesc : DF :=
  DF.mk ["ID", "record_date", "value"]
    [Row.mk 3 (PyTime.mk 200 none) [("value", 30)],
     Row.mk 2 (PyTime.mk 100 none) [("value", 20)],
     Row.mk 1 (PyTime.mk 0 none) [("value", 10)]]

/-- A one-row table whose only metric column is literally named
`timestamps`. -/
def dfShadow : DF :=
  DF.mk ["ID", "record_date", "timestamps"]
    [Row.mk 1 (PyTime.mk 0 (some 28800)) [("timestamps", 5)]]

/-- A one-row table whose row is timestamped exactly at instant 100. -/
def dfAtNow : DF :=
  DF.mk ["ID", "record_date", "value"]
    [Row.mk 1 (PyTime.mk 100 (some 28800)) [("value", 5)]]

/-- A two-row descending table with instants 1000 and 0, for the window
comparisons. -/
def dfWin : DF :=
  DF.mk ["ID", "record_date", "value"]
    [Row.mk 2 (PyTime.mk 1000 (some 28800)) [("value", 1)],
     Row.mk 1 (PyTime.mk 0 (some 28800)) [("value", 2)]]

/-!
## Dictionary lemmas
-/

theorem lookupD_cons {α : Type} (p : String × α) (ps : List (String × α)) (k : String) :
    lookupD (p :: ps) k = if p.1 == k then some p.2 else lookupD ps k :=
  rfl

theorem lookupD_map_replace_self {α : Type} (k : String) (v : α) :
    ∀ d : List (String × α), d.any (fun p => p.1 == k) = true →
      lookupD (d.map (fun p => if p.1 == k then (k, v) else p)) k = some v := by
  intro d
  induction d with
  | nil => intro h; simp at h
  | cons p ps ih =>
    intro h
    by_cases hp : (p.1 == k) = true
    · rw [List.map_cons, if_pos hp, lookupD_cons]
      rw [if_pos (beq_self_eq_true k)]
    · have hps : ps.any (fun p => p.1 == k) = true := by
        rw [List.any_cons, Bool.eq_false_iff.mpr hp, Bool.false_or] at h
        exact h
      rw [List.map_cons, if_neg hp, lookupD_cons, if_neg hp]
      exact ih hps

theorem lookupD_map_replace_ne {α : Type} {k k' : String} (h : k' ≠ k) (v : α) :
    ∀ d : List (String × α),
      lookupD (d.map (fun p => if p.1 == k then (k, v) else p)) k' = lookupD d k' := by
  intro d
  induction d with
  | nil => rfl
  | cons p ps ih =>
    by_cases hp : (p.1 == k) = true
    · have hpk : p.1 = k := eq_of_beq hp
      have h1 : ¬ ((k == k') = true) := by
        rw [beq_eq_false_iff_ne.mpr (Ne.symm h)]
        exact Bool.false_ne_true
      have h2 : ¬ ((p.1 == k') = true) := by rw [hpk]; exact h1
      rw [List.map_cons, if_pos hp, lookupD_cons, if_neg h1, lookupD_cons, if_neg h2]
      exact ih
    · by_cases hp' : (p.1 == k') = true
      · rw [List.map_cons, if_neg hp, lookupD_cons, if_pos hp', lookupD_cons, if_pos hp']
      · rw [List.map_cons, if_neg hp, lookupD_cons, if_neg hp', lookupD_cons, if_neg hp']
        exact ih

theorem lookupD_append_single_self {α : Type} (k : String) (v : α) :
    ∀ d : List (String × α), d.any (fun p => p.1 == k) = false →
      lookupD (d ++ [(k, v)]) k = some v := by
  intro d
  induction d with
  | nil =>
    intro _
    rw [List.nil_append, lookupD_cons, if_pos (beq_self_eq_true k)]
  | cons p ps ih =>
    intro h
    rw [List.any_cons] at h
    have hp : (p.1 == k) = false := by
      cases hb : (p.1 == k) with
      | false => rfl
      | true => rw [hb, Bool.true_or] at h; exact absurd h (by simp)
    have hps : ps.any (fun p => p.1 == k) = false := by
      rw [hp, Bool.false_or] at h
      exact h
    rw [List.cons_append, lookupD_cons, if_neg (by rw [hp]; exact Bool.false_ne_true)]
    exact ih hps

theorem lookupD_append_single_ne {α : Type} {k k' : String} (h : k' ≠ k) (v : α) :
    ∀ d : List (String × α), lookupD (d ++ [(k, v)]) k' = lookupD d k' := by
  intro d
  induction d with
  | nil =>
    have h1 : ¬ ((k == k') = true) := by
      rw [beq_eq_false_iff_ne.mpr (Ne.symm h)]
      exact Bool.false_ne_true
    rw [List.nil_append, lookupD_cons, if_neg h1]
  | cons p ps ih =>
    by_cases hp : (p.1 == k') = true
    · rw [List.cons_append, lookupD_cons, if_pos hp, lookupD_cons, if_pos hp]
    · rw [List.cons_append, lookupD_cons, if_neg hp, lookupD_cons, if_neg hp]
      exact ih

theorem lookupD_dictInsert_self {α : Type} (d : List (String × α)) (k : String) (v : α) :
    lookupD (dictInsert d k v) k = some v := by
  unfold dictInsert
  by_cases h : d.any (fun p => p.1 == k) = true
  · rw [if_pos h]; exact lookupD_map_replace_self k v d h
  · rw [if_neg h]
    exact lookupD_append_single_self k v d (Bool.eq_false_iff.mpr h)

theorem lookupD_dictInsert_ne {α : Type} (d : List (String × α)) {k k' : String}
    (h : k' ≠ k) (v : α) :
    lookupD (dictInsert d k v) k' = lookupD d k' := by
  unfold dictInsert
  by_cases hany : d.any (fun p => p.1 == k) = true
  · rw [if_pos hany]; exact lookupD_map_replace_ne h v d
  · rw [if_neg hany]; exact lookupD_append_single_ne h v d

theorem mem_dictInsert {α : Type} {d : List (String × α)} {k : String} {v : α}
    {p : String × α} (hp : p ∈ dictInsert d k v) : p ∈ d ∨ p = (k, v) := by
  unfold dictInsert at hp
  split at hp
  · rcases List.mem_map.mp hp with ⟨q, hq, hfq⟩
    by_cases hqk : (q.1 == k) = true
    · right; rw [← hfq, if_pos hqk]
    · left; rw [← hfq, if_neg hqk]; exact hq
  · rcases List.mem_append.mp hp with h1 | h1
    · exact Or.inl h1
    · exact Or.inr (List.mem_singleton.mp h1)

theorem lookupD_mem {α : Type} {d : List (String × α)} {k : String} {v : α}
    (h : lookupD d k = some v) : (k, v) ∈ d := by
  induction d with
  | nil => exact absurd h (by simp [lookupD])
  | cons p ps ih =>
    by_cases hp : (p.1 == k) = true
    · rw [lookupD_cons, if_pos hp] at h
      have hv : p.2 = v := Option.some.inj h
      have hpkv : p = (k, v) := Prod.ext (eq_of_beq hp) hv
      rw [← hpkv]
      exact List.mem_cons_self p ps
    · rw [lookupD_cons, if_neg hp] at h
      exact List.mem_cons_of_mem p (ih h)

/-!
## Lemmas about the column fold shared by `process_historical_metrics`
and `process_summary`
-/

theorem fold_insert_lookup_not_mem {α : Type} (g : String → α) (cols : List String)
    (k : String) (h : ∀ c ∈ cols, c ≠ k) :
    ∀ init : List (String × α),
      lookupD
        (cols.foldl
          (fun m c =>
            if c == "ID" || c == "record_date" then m else dictInsert m c (g c))
          init) k = lookupD init k := by
  induction cols with
  | nil => intro init; rfl
  | cons c cs ih =>
    intro init
    rw [List.foldl_cons]
    have hcs : ∀ c' ∈ cs, c' ≠ k := fun c' hc' => h c' (List.mem_cons_of_mem c hc')
    by_cases hc : (c == "ID" || c == "record_date") = true
    · rw [if_pos hc]; exact ih hcs init
    · rw [if_neg hc, ih hcs _]
      exact lookupD_dictInsert_ne init (Ne.symm (h c (List.mem_cons_self c cs))) (g c)

theorem fold_insert_lookup_mem {α : Type} (g : String → α) (cols : List String)
    (k : String) (hk : k ∈ cols) (hsk : (k == "ID" || k == "record_date") = false) :
    ∀ init : List (String × α),
      lookupD
        (cols.foldl
          (fun m c =>
            if c == "ID" || c == "record_date" then m else dictInsert m c (g c))
          init) k = some (g k) := by
  induction cols with
  | nil => exact absurd hk (List.not_mem_nil k)
  | cons c cs ih =>
    intro init
    rw [List.foldl_cons]
    by_cases hmem : k ∈ cs
    · exact ih hmem _
    · have hck : c = k := by
        rcases List.mem_cons.mp hk with h1 | h1
        · exact h1.symm
        · exact absurd h1 hmem
      subst hck
      rw [if_neg (by simp [hsk])]
      rw [fold_insert_lookup_not_mem g cs c (fun c' hc' heq => hmem (heq ▸ hc')) _]
      exact lookupD_dictInsert_self init c (g c)

theorem mem_fold_insert {α : Type} (g : String → α) :
    ∀ (cols : List String) (init : List (String × α)) (p : String × α),
      p ∈
          cols.foldl
            (fun m c =>
              if c == "ID" || c == "record_date" then m else dictInsert m c (g c))
            init →
        p ∈ init ∨ p.2 = g p.1 := by
  intro cols
  induction cols with
  | nil => intro init p hp; exact Or.inl hp
  | cons c cs ih =>
    intro init p hp
    rw [List.foldl_cons] at hp
    by_cases hc : (c == "ID" || c == "record_date") = true
    · rw [if_pos hc] at hp; exact ih init p hp
    · rw [if_neg hc] at hp
      rcases ih _ p hp with h1 | h1
      · rcases mem_dictInsert h1 with h2 | h2
        · exact Or.inl h2
        · right; rw [h2]
      · exact Or.inr h1

/-!
## Lookup characterization of `process_historical_metrics`
-/

theorem phm_lookup_timestamps (df : DF) :
    lookupD (process_historical_metrics df) "timestamps" = some (tsSeq df) := by
  unfold process_historical_metrics
  exact lookupD_dictInsert_self _ _ _

theorem phm_lookup_col (df : DF) (c : String) (hc : c ∈ df.columns)
    (h1 : (c == "ID" || c == "record_date") = false) (h2 : c ≠ "timestamps") :
    lookupD (process_historical_metrics df) c = some (seqOf df c) := by
  unfold process_historical_metrics
  rw [lookupD_dictInsert_ne _ h2]
  exact fold_insert_lookup_mem (fun c => seqOf df c) df.columns c hc h1 []

theorem phm_lookup_some (df : DF) (k : String) (v : List Cell)
    (h : lookupD (process_historical_metrics df) k = some v) :
    (k = "timestamps" ∧ v = tsSeq df) ∨ (k ≠ "timestamps" ∧ v = seqOf df k) := by
  by_cases hk : k = "timestamps"
  · left
    refine ⟨hk, ?_⟩
    subst hk
    rw [phm_lookup_timestamps df] at h
    exact (Option.some.injEq _ _ ▸ h).symm
  · right
    refine ⟨hk, ?_⟩
    unfold process_historical_metrics at h
    rw [lookupD_dictInsert_ne _ hk] at h
    rcases mem_fold_insert (fun c => seqOf df c) df.columns [] (k, v) (lookupD_mem h) with
      h1 | h1
    · simp at h1
    · exact h1

/-!
## Bounds for `listMax`, `listMin`, `listMean`
-/

theorem le_foldl_max (l : List Rat) : ∀ a : Rat, a ≤ l.foldl max a := by
  induction l with
  | nil => intro a; exact le_refl a
  | cons x xs ih =>
    intro a
    exact le_trans (le_max_left a x) (ih (max a x))

theorem mem_le_foldl_max (l : List Rat) :
    ∀ a : Rat, ∀ b ∈ l, b ≤ l.foldl max a := by
  induction l with
  | nil => intro a b hb; exact absurd hb (List.not_mem_nil b)
  | cons x xs ih =>
    intro a b hb
    rcases List.mem_cons.mp hb with h1 | h1
    · subst h1
      exact le_trans (le_max_right a b) (le_foldl_max xs (max a b))
    · exact ih (max a x) b h1

theorem le_listMax {l : List Rat} {b : Rat} (hb : b ∈ l) : b ≤ listMax l := by
  cases l with
  | nil => exact absurd hb (List.not_mem_nil b)
  | cons x xs =>
    rcases List.mem_cons.mp hb with h1 | h1
    · subst h1; exact le_foldl_max xs b
    · exact mem_le_foldl_max xs x b h1

theorem foldl_min_le (l : List Rat) : ∀ a : Rat, l.foldl min a ≤ a := by
  induction l with
  | nil => intro a; exact le_refl a
  | cons x xs ih =>
    intro a
    exact le_trans (ih (min a x)) (min_le_left a x)

theorem foldl_min_le_mem (l : List Rat) :
    ∀ a : Rat, ∀ b ∈ l, l.foldl min a ≤ b := by
  induction l with
  | nil => intro a b hb; exact absurd hb (List.not_mem_nil b)
  | cons x xs ih =>
    intro a b hb
    rcases List.mem_cons.mp hb with h1 | h1
    · subst h1
      exact le_trans (foldl_min_le xs (min a b)) (min_le_right a b)
    · exact ih (min a x) b h1

theorem listMin_le {l : List Rat} {b : Rat} (hb : b ∈ l) : listMin l ≤ b := by
  cases l with
  | nil => exact absurd hb (List.not_mem_nil b)
  | cons x xs =>
    rcases List.mem_cons.mp hb with h1 | h1
    · subst h1; exact foldl_min_le xs b
    · exact foldl_min_le_mem xs x b h1

theorem listMean_le_listMax {l : List Rat} (hl : l ≠ []) :
    listMean l ≤ listMax l := by
  have hlen : (0 : Rat) < (l.length : Rat) := by
    exact_mod_cast List.length_pos.mpr hl
  unfold listMean
  rw [div_le_iff₀ hlen]
  have h1 : l.sum ≤ l.length • listMax l :=
    List.sum_le_card_nsmul l (listMax l) (fun x hx => le_listMax hx)
  rw [nsmul_eq_mul] at h1
  rw [mul_comm]
  exact h1

theorem listMin_le_listMean {l : List Rat} (hl : l ≠ []) :
    listMin l ≤ listMean l := by
  have hlen : (0 : Rat) < (l.length : Rat) := by
    exact_mod_cast List.length_pos.mpr hl
  unfold listMean
  rw [le_div_iff₀ hlen]
  have h1 : l.length • listMin l ≤ l.sum :=
    List.card_nsmul_le_sum l (listMin l) (fun x hx => listMin_le hx)
  rw [nsmul_eq_mul] at h1
  rw [mul_comm]
  exact h1

/-!
## Filtering sorted rows: the tighter cutoff keeps a prefix
-/

theorem filter_cutoff_append (c₁ c₂ : Int) (hc : c₂ ≤ c₁) :
    ∀ l : List Row,
      l.Pairwise (fun a b => b.record_date.val ≤ a.record_date.val) →
      ∃ t, l.filter (fun r => decide (c₁ ≤ r.record_date.val)) ++ t =
        l.filter (fun r => decide (c₂ ≤ r.record_date.val)) := by
  intro l
  induction l with
  | nil => intro _; exact ⟨[], rfl⟩
  | cons r rs ih =>
    intro hs
    have hs1 : ∀ b ∈ rs, b.record_date.val ≤ r.record_date.val :=
      (List.pairwise_cons.mp hs).1
    have hs2 : rs.Pairwise (fun a b => b.record_date.val ≤ a.record_date.val) :=
      (List.pairwise_cons.mp hs).2
    by_cases h1 : c₁ ≤ r.record_date.val
    · have h2 : c₂ ≤ r.record_date.val := le_trans hc h1
      rcases ih hs2 with ⟨t, ht⟩
      refine ⟨t, ?_⟩
      rw [List.filter_cons, List.filter_cons, if_pos (by simpa using h1),
        if_pos (by simpa using h2), List.cons_append, ht]
    · by_cases h2 : c₂ ≤ r.record_date.val
      · have hnil : rs.filter (fun r' => decide (c₁ ≤ r'.record_date.val)) = [] := by
          rw [List.filter_eq_nil_iff]
          intro a ha
          simp only [decide_eq_true_eq]
          intro hca
          exact h1 (le_trans hca (hs1 a ha))
        refine ⟨r :: rs.filter (fun r' => decide (c₂ ≤ r'.record_date.val)), ?_⟩
        rw [List.filter_cons, List.filter_cons, if_neg (by simpa using h1),
          if_pos (by simpa using h2), hnil, List.nil_append]
      · rcases ih hs2 with ⟨t, ht⟩
        refine ⟨t, ?_⟩
        rw [List.filter_cons, List.filter_cons, if_neg (by simpa using h1),
          if_neg (by simpa using h2), ht]

theorem map_take_of_append {α β : Type} (f : α → β) (l1 t l2 : List α)
    (h : l1 ++ t = l2) :
    (l2.map f).take (l1.map f).length = l1.map f := by
  rw [← h, List.map_append]
  exact List.take_left (l1.map f) (t.map f)

/-!
## Lemma for `convert_to_china_timezone`
-/

theorem mapOpt_eq_map {α β : Type} (f : α → Option β) (g : α → β) :
    ∀ l : List α, (∀ x ∈ l, f x = some (g x)) → mapOpt f l = some (l.map g) := by
  intro l
  induction l with
  | nil => intro _; rfl
  | cons x xs ih =>
    intro h
    have hx : f x = some (g x) := h x (List.mem_cons_self x xs)
    have hxs : mapOpt f xs = some (xs.map g) :=
      ih (fun y hy => h y (List.mem_cons_of_mem x hy))
    rw [List.map_cons]
    unfold mapOpt
    rw [hx, hxs]

theorem phm_mem (df : DF) (p : String × List Cell)
    (hp : p ∈ process_historical_metrics df) :
    p.2 = tsSeq df ∨ p.2 = seqOf df p.1 := by
  unfold process_historical_metrics at hp
  rcases mem_dictInsert hp with h1 | h1
  · rcases mem_fold_insert (fun c => seqOf df c) df.columns [] p h1 with h2 | h2
    · simp at h2
    · exact Or.inr h2
  · left; rw [h1]

/-!
## Claim theorems
-/

/-- C1: for every Table (non-empty and, per the data model, ordered
descending by timestamp), the summary aggregator succeeds and gives
every metric column a summary with `max ≥ avg ≥ min`, and `current`
equal to the metric value of a row carrying the latest timestamp in the
Table. -/
theorem summary_bounds_and_current (df : DF)
    (hne : df.rows ≠ [])
    (hsort : df.rows.Pairwise (fun a b => b.record_date.val ≤ a.record_date.val)) :
    ∀ c ∈ metricCols df,
      ∃ s cs, process_summary df = some s ∧
        lookupD s.metrics_summary c = some cs ∧
        cs.mn ≤ cs.avg ∧ cs.avg ≤ cs.mx ∧
        ∃ r, r ∈ df.rows ∧
          (∀ r' ∈ df.rows, r'.record_date.val ≤ r.record_date.val) ∧
          cs.current = r.getCol c := by
  obtain ⟨cols, rows⟩ := df
  cases rows with
  | nil => exact absurd rfl hne
  | cons r0 rest =>
    intro c hc
    have hc1 : c ∈ cols := (List.mem_filter.mp hc).1
    have hskip : (c == "ID" || c == "record_date") = false := by
      have := (List.mem_filter.mp hc).2
      simpa using this
    refine ⟨_, ColSummary.mk (listMax ((r0 :: rest).map (fun r => r.getCol c)))
      (listMin ((r0 :: rest).map (fun r => r.getCol c)))
      (listMean ((r0 :: rest).map (fun r => r.getCol c)))
      (r0.getCol c), rfl, ?_, ?_, ?_, ?_⟩
    · exact fold_insert_lookup_mem
        (fun c => ColSummary.mk (listMax ((r0 :: rest).map (fun r => r.getCol c)))
          (listMin ((r0 :: rest).map (fun r => r.getCol c)))
          (listMean ((r0 :: rest).map (fun r => r.getCol c)))
          (r0.getCol c))
        cols c hc1 hskip []
    · exact listMin_le_listMean (by simp)
    · exact listMean_le_listMax (by simp)
    · refine ⟨r0, List.mem_cons_self r0 rest, ?_, rfl⟩
      intro r' hr'
      rcases List.mem_cons.mp hr' with h1 | h1
      · rw [h1]
      · exact (List.pairwise_cons.mp hsort).1 r' h1

/-- Witness for C1 at the concrete descending table `dfDesc`. -/
theorem summary_bounds_and_current_witness :
    ∃ s cs, process_summary dfDesc = some s ∧
      lookupD s.metrics_summary "value" = some cs ∧
      cs.mn ≤ cs.avg ∧ cs.avg ≤ cs.mx ∧
      ∃ r, r ∈ dfDesc.rows ∧
        (∀ r' ∈ dfDesc.rows, r'.record_date.val ≤ r.record_date.val) ∧
        cs.current = r.getCol "value" :=
  summary_bounds_and_current dfDesc (by decide) (by decide) "value" (by decide)

/-- C2 counterexample: on a Table whose only metric column is literally
named `timestamps`, the reshaper does not expose that column; the output
at key `timestamps` holds the formatted date strings, not the column
values `[5]`, so the claimed per-metric-column value sequences do not
exist for every Table. -/
theorem historical_metrics_shadow_cex :
    lookupD (process_historical_metrics dfShadow) "timestamps" ≠
      some [Cell.num 5] ∧
    lookupD (process_historical_metrics dfShadow) "timestamps" =
      some [Cell.str "1970-01-01 08:00:00"] :=
  ⟨by decide, by decide⟩

/-- C2 (amended): for every non-empty Table with no metric column named
`timestamps`, the reshaper maps every metric column to its value
sequence in input-row order and `timestamps` to the formatted timestamp
sequence in input-row order, all of length equal to the row count. -/
theorem historical_metrics_lengths (df : DF)
    (hne : df.rows ≠ []) (hts : "timestamps" ∉ metricCols df) :
    (lookupD (process_historical_metrics df) "timestamps" = some (tsSeq df) ∧
      (tsSeq df).length = df.rows.length) ∧
    ∀ c ∈ metricCols df,
      lookupD (process_historical_metrics df) c = some (seqOf df c) ∧
      (seqOf df c).length = df.rows.length := by
  constructor
  · exact ⟨phm_lookup_timestamps df, by simp [tsSeq]⟩
  · intro c hc
    have hc1 : c ∈ df.columns := (List.mem_filter.mp hc).1
    have hskip : (c == "ID" || c == "record_date") = false := by
      have := (List.mem_filter.mp hc).2
      simpa using this
    have hcts : c ≠ "timestamps" := fun h => hts (h ▸ hc)
    exact ⟨phm_lookup_col df c hc1 hskip hcts, by simp [seqOf]⟩

/-- Witness for the amended C2 at the concrete table `dfDesc`. -/
theorem historical_metrics_lengths_witness :
    lookupD (process_historical_metrics dfDesc) "value" = some (seqOf dfDesc "value") ∧
    (seqOf dfDesc "value").length = dfDesc.rows.length :=
  (historical_metrics_lengths dfDesc (by decide) (by decide)).2 "value" (by decide)

/-- C3 counterexample: the first normalization of the scenario table
succeeds, but applying the normalizer a second time raises
(`tz_localize` of already tz-aware data), returning no Table at all —
it does not produce timestamps shifted by +16 hours. -/
theorem convert_twice_cex :
    (convert_to_china_timezone df5).isSome = true ∧
    Option.bind (convert_to_china_timezone df5) convert_to_china_timezone = none :=
  ⟨by decide, by decide⟩

/-- C3 (amended): on a Table of timezone-naive (UTC) timestamps, one
application of the normalizer shifts every wall-clock representation by
exactly +8 hours (28800 s) while preserving the instant and all other
fields; applying the normalizer again to the converted Table raises
(returns `none`) instead of shifting by +16 hours. -/
theorem convert_shifts_once_errors_twice (df : DF)
    (h : ∀ r ∈ df.rows, r.record_date.tz = none) :
    (∃ df', convert_to_china_timezone df = some df' ∧
      df'.columns = df.columns ∧
      List.Forall₂
        (fun r r' =>
          r'.record_date.displaySecs = r.record_date.displaySecs + 28800 ∧
          r'.record_date.val = r.record_date.val ∧
          r'.ID = r.ID ∧ r'.vals = r.vals)
        df.rows df'.rows) ∧
    (df.rows ≠ [] →
      ∀ df', convert_to_china_timezone df = some df' →
        convert_to_china_timezone df' = none) := by
  have hmap :
      mapOpt
        (fun r =>
          ((tz_localize_utc r.record_date).bind tz_convert_shanghai).map
            (fun t => { r with record_date := t }))
        df.rows =
      some (df.rows.map
        (fun r => { r with record_date := PyTime.mk r.record_date.val (some 28800) })) := by
    apply mapOpt_eq_map
    intro r hr
    simp [tz_localize_utc, tz_convert_shanghai, h r hr]
  have hconv : convert_to_china_timezone df =
      some (DF.mk df.columns (df.rows.map
        (fun r => { r with record_date := PyTime.mk r.record_date.val (some 28800) }))) := by
    unfold convert_to_china_timezone
    rw [hmap]
    rfl
  constructor
  · refine ⟨_, hconv, rfl, ?_⟩
    rw [List.forall₂_map_right_iff, List.forall₂_same]
    intro r hr
    refine ⟨?_, rfl, rfl, rfl⟩
    simp [PyTime.displaySecs, h r hr]
  · intro hne df' hdf'
    have hdf'' : df' = DF.mk df.columns (df.rows.map
        (fun r => { r with record_date := PyTime.mk r.record_date.val (some 28800) })) :=
      Option.some.inj (hdf'.symm.trans hconv)
    subst hdf''
    cases hrows : df.rows with
    | nil => exact absurd hrows hne
    | cons r rs =>
      rw [List.map_cons]
      unfold convert_to_china_timezone
      simp [mapOpt, tz_localize_utc]

/-- Witness for the amended C3 at the concrete table `dfDesc`. -/
theorem convert_shifts_once_errors_twice_witness :
    Option.bind (convert_to_china_timezone dfDesc) convert_to_china_timezone = none := by
  have H := convert_shifts_once_errors_twice dfDesc (by decide)
  rcases H.1 with ⟨df', hdf', _, _⟩
  rw [hdf', Option.some_bind]
  exact H.2 (by decide) df' hdf'

/-- C4 counterexample: a Table with one row timestamped exactly at the
sampled `now` instant gives a non-empty value sequence under a window of
duration 0 (the filter keeps rows with timestamp ≥ now), so a 0 window
does not yield empty sequences for every Table. -/
theorem window_zero_cex :
    lookupD (process_window dfAtNow 100 0) "value" = some [Cell.num 5] ∧
    ([Cell.num 5] : List Cell) ≠ [] :=
  ⟨by decide, by decide⟩

/-- C4 (amended): for a Table all of whose rows are timestamped strictly
before the sampled `now`, the windowed builder with duration 0 maps
every key to the empty sequence; and whenever the window covers every
row (each timestamp ≥ now − duration), its output equals the
historical-metrics reshaper on the unfiltered Table. -/
theorem window_zero_empty_and_full_window_id (df : DF) (now dur : Int)
    (h0 : ∀ r ∈ df.rows, r.record_date.val < now)
    (hd : ∀ r ∈ df.rows, now - dur ≤ r.record_date.val) :
    (∀ p ∈ process_window df now 0, p.2 = []) ∧
    process_window df now dur = process_historical_metrics df := by
  constructor
  · intro p hp
    have hfil : (filterWindow df (now - 0)).rows = [] := by
      unfold filterWindow
      rw [List.filter_eq_nil_iff]
      intro a ha
      simp only [decide_eq_true_eq]
      intro hle
      have h1 := h0 a ha
      omega
    unfold process_window at hp
    rcases phm_mem (filterWindow df (now - 0)) p hp with h1 | h1
    · rw [h1]; unfold tsSeq; rw [hfil]; rfl
    · rw [h1]; unfold seqOf; rw [hfil]; rfl
  · unfold process_window
    have heq : filterWindow df (now - dur) = df := by
      unfold filterWindow
      have hfe : df.rows.filter (fun r => decide (now - dur ≤ r.record_date.val)) =
          df.rows :=
        List.filter_eq_self.mpr (fun a ha => by simpa using hd a ha)
      rw [hfe]
    rw [heq]

/-- Witness for the amended C4 at the concrete table `dfDesc`. -/
theorem window_zero_empty_and_full_window_id_witness :
    process_window dfDesc 300 1000000 = process_historical_metrics dfDesc ∧
    lookupD (process_window dfDesc 300 0) "value" = some [] := by
  have H := window_zero_empty_and_full_window_id dfDesc 300 1000000
    (by decide) (by decide)
  exact ⟨H.2, by decide⟩

/-- C5: on the three-row scenario Table (UTC timestamps 2024-01-01
00:00, 2024-01-01 12:00, 2024-01-02 00:00 and `value` = 10, 20, 30
ascending), normalizing, re-sorting descending by timestamp, and taking
the latest record yields `value = 30` and
`record_date = "2024-01-02 08:00:00"`. -/
theorem latest_scenario_value_and_date :
    (((convert_to_china_timezone df5).map
          (fun d => DF.mk d.columns (sortDesc d.rows))).bind
        process_latest_data).map (fun l => l.record_date) =
      some "2024-01-02 08:00:00" ∧
    (((convert_to_china_timezone df5).map
          (fun d => DF.mk d.columns (sortDesc d.rows))).bind
        process_latest_data).map (fun l => colVal l.vals "value") =
      some 30 :=
  ⟨by decide, by decide⟩

/-- C6 counterexample: in the latest-only job, when the query step fails
after the connection is acquired, the run terminates without ever
reaching `conn.close()`: the connection is not closed. -/
theorem connection_not_closed_cex :
    Ev.connected ∈ collect_run true false true true ∧
    Ev.closed ∉ collect_run true false true true :=
  ⟨by decide, by decide⟩

/-- C6 (amended): the full-history job closes the connection on every
run that acquires it (the `try`/`finally` in `fetch_data`), but the
latest-only job closes it only when the query and both file writes all
succeed — on any failure after acquisition the connection stays open. -/
theorem connection_closed_update_only :
    (∀ c q v w : Bool,
      Ev.connected ∈ update_run c q v w → Ev.closed ∈ update_run c q v w) ∧
    (∀ c q w1 w2 : Bool,
      Ev.connected ∈ collect_run c q w1 w2 →
        (Ev.closed ∈ collect_run c q w1 w2 ↔ (q = true ∧ w1 = true ∧ w2 = true))) :=
  ⟨by decide, by decide⟩

/-- Witness for the amended C6 at concrete success/failure patterns. -/
theorem connection_closed_update_only_witness :
    Ev.closed ∈ update_run true false true true ∧
    Ev.closed ∈ collect_run true true true true := by
  constructor
  · exact connection_closed_update_only.1 true false true true (by decide)
  · exact (connection_closed_update_only.2 true true true true (by decide)).mpr
      ⟨rfl, rfl, rfl⟩

/-- C7 counterexample: the writer itself does not create missing parent
directories — on a filesystem with no directories, writing
`data/latest.json` fails instead of succeeding as claimed. -/
theorem writer_no_mkdir_cex :
    save_json [] "data" "latest.json" = none := by decide

/-- C7 (amended): the writer succeeds exactly when the parent directory
already exists (it creates no directories); the full-history job's
`main` pre-creates the needed directories with `os.makedirs`, so all
five of its writes succeed on any initial filesystem, while the
latest-only job's writes succeed only if `data` already exists. -/
theorem writer_requires_existing_dir :
    (∀ (dirs : List String) (p f : String),
      (save_json dirs p f).isSome = true ↔ dirs.contains p = true) ∧
    (∀ dirs : List String, ∀ w ∈ update_main_writes dirs, w.isSome = true) ∧
    (∀ dirs : List String, ∀ w ∈ collect_main_writes dirs,
      (w.isSome = true ↔ dirs.contains "data" = true)) := by
  have hsave : ∀ (dirs : List String) (p f : String),
      (save_json dirs p f).isSome = true ↔ dirs.contains p = true := by
    intro dirs p f
    unfold save_json
    by_cases h : dirs.contains p = true
    · rw [if_pos h]
      simp only [Option.isSome_some, true_iff]
      exact h
    · rw [if_neg h]
      simp only [Option.isSome_none, Bool.false_eq_true, false_iff]
      exact h
  refine ⟨hsave, ?_, ?_⟩
  · intro dirs w hw
    have hdirs : ∀ p : String,
        p ∈ (["data", "data/historical", "data/historical/archived",
          "data/cache"] : List String) →
        (update_main_dirs dirs).contains p = true := by
      intro p hp
      unfold update_main_dirs
      simp only [List.elem_eq_mem, List.mem_append, Bool.decide_or, Bool.or_eq_true,
        decide_eq_true_eq]
      exact Or.inr hp
    simp only [update_main_writes, List.mem_cons, List.not_mem_nil, or_false] at hw
    rcases hw with h | h | h | h | h <;> rw [h] <;>
      exact (hsave _ _ _).mpr (hdirs _ (by decide))
  · intro dirs w hw
    simp only [collect_main_writes, List.mem_cons, List.not_mem_nil, or_false] at hw
    rcases hw with h | h <;> rw [h] <;> exact hsave _ _ _

/-- Witness for the amended C7 at concrete filesystems. -/
theorem writer_requires_existing_dir_witness :
    (save_json ["data"] "data" "latest.json").isSome = true ∧
    (save_json (update_main_dirs []) "data/cache" "hour-24.json").isSome = true := by
  constructor
  · exact (writer_requires_existing_dir.1 ["data"] "data" "latest.json").mpr (by decide)
  · exact writer_requires_existing_dir.2.1 []
      (save_json (update_main_dirs []) "data/cache" "hour-24.json") (by decide)

/-- C8 counterexample: the windowed-cache builder samples the clock
itself, so running it on the same Table at two different moments can
give different outputs — here the row at instant 1000 is inside the
24-hour window at one moment and outside it at a much later moment. -/
theorem cached_data_clock_dependent_cex :
    process_cached_data_at dfWin 50 ≠ process_cached_data_at dfWin 10000000000 := by
  decide

/-- C8 (amended): the latest-record extractor, historical-metrics
reshaper and summary aggregator never read the clock, so runs at any two
moments agree; the windowed-cache builder is determined by the Table and
the sampled `now` — whenever two sampled instants induce the same window
membership for every row, its outputs agree (in particular it is
deterministic for a fixed sampled `now`), but at moments inducing
different memberships its outputs may differ. -/
theorem transformers_pure_cached_clock_dependent (df : DF) (t1 t2 : Int) :
    process_latest_data_at df t1 = process_latest_data_at df t2 ∧
    process_historical_metrics_at df t1 = process_historical_metrics_at df t2 ∧
    process_summary_at df t1 = process_summary_at df t2 ∧
    ((∀ r ∈ df.rows,
        (t1 - 86400 ≤ r.record_date.val ↔ t2 - 86400 ≤ r.record_date.val)) →
      (∀ r ∈ df.rows,
        (t1 - 2592000 ≤ r.record_date.val ↔ t2 - 2592000 ≤ r.record_date.val)) →
      process_cached_data_at df t1 = process_cached_data_at df t2) := by
  refine ⟨rfl, rfl, rfl, ?_⟩
  intro h24 h30
  unfold process_cached_data_at process_cached_data process_window
  have e24 : filterWindow df (t1 - 86400) = filterWindow df (t2 - 86400) := by
    unfold filterWindow
    congr 1
    apply List.filter_congr
    intro r hr
    exact decide_eq_decide.mpr (h24 r hr)
  have e30 : filterWindow df (t1 - 2592000) = filterWindow df (t2 - 2592000) := by
    unfold filterWindow
    congr 1
    apply List.filter_congr
    intro r hr
    exact decide_eq_decide.mpr (h30 r hr)
  rw [e24, e30]

/-- Witness for the amended C8 at the concrete table `dfWin` and two
nearby instants inducing the same window membership. -/
theorem transformers_pure_cached_clock_dependent_witness :
    process_summary_at dfWin 87000 = process_summary_at dfWin 87001 ∧
    process_cached_data_at dfWin 87000 = process_cached_data_at dfWin 87001 :=
  ⟨(transformers_pure_cached_clock_dependent dfWin 87000 87001).2.2.1,
    (transformers_pure_cached_clock_dependent dfWin 87000 87001).2.2.2
      (by decide) (by decide)⟩

/-- C9: for a Table sorted descending by timestamp and a fixed sampled
`now`, every row inside the 24-hour window is inside the 30-day window,
and every sequence of the hour-24 output is a prefix of the
corresponding sequence of the day-30 output (the day-30 sequence
truncated to the hour-24 length gives back the hour-24 sequence). -/
theorem hour24_rows_subset_and_seq_take (df : DF) (now : Int)
    (hsort : df.rows.Pairwise (fun a b => b.record_date.val ≤ a.record_date.val)) :
    (∀ r ∈ (filterWindow df (now - 86400)).rows,
      r ∈ (filterWindow df (now - 2592000)).rows) ∧
    ∀ k v1 v2,
      lookupD (process_cached_data df now).1 k = some v1 →
      lookupD (process_cached_data df now).2 k = some v2 →
      v2.take v1.length = v1 := by
  constructor
  · intro r hr
    unfold filterWindow at hr ⊢
    simp only [List.mem_filter, decide_eq_true_eq] at hr ⊢
    exact ⟨hr.1, by omega⟩
  · intro k v1 v2 h1 h2
    have h1' : lookupD (process_historical_metrics (filterWindow df (now - 86400))) k =
        some v1 := h1
    have h2' : lookupD (process_historical_metrics (filterWindow df (now - 2592000))) k =
        some v2 := h2
    rcases filter_cutoff_append (now - 86400) (now - 2592000) (by omega) df.rows hsort
      with ⟨t, ht⟩
    have ht' : (filterWindow df (now - 86400)).rows ++ t =
        (filterWindow df (now - 2592000)).rows := ht
    rcases phm_lookup_some (filterWindow df (now - 86400)) k v1 h1' with
      ⟨hk, hv1⟩ | ⟨hk, hv1⟩
    · subst hk
      rw [phm_lookup_timestamps] at h2'
      have hv2 : v2 = tsSeq (filterWindow df (now - 2592000)) :=
        (Option.some.inj h2').symm
      rw [hv1, hv2]
      unfold tsSeq
      exact map_take_of_append _ _ t _ ht'
    · rcases phm_lookup_some (filterWindow df (now - 2592000)) k v2 h2' with
        ⟨hk2, _⟩ | ⟨_, hv2⟩
      · exact absurd hk2 hk
      · rw [hv1, hv2]
        unfold seqOf
        exact map_take_of_append _ _ t _ ht'

/-- Witness for C9 at the concrete table `dfWin` and `now = 87000`:
the hour-24 `value` sequence `[1]` is a prefix of the day-30 `value`
sequence `[1, 2]`. -/
theorem hour24_rows_subset_and_seq_take_witness :
    ([Cell.num 1, Cell.num 2] : List Cell).take
        ([Cell.num 1] : List Cell).length = [Cell.num 1] :=
  (hour24_rows_subset_and_seq_take dfWin 87000 (by decide)).2 "value"
    [Cell.num 1] [Cell.num 1, Cell.num 2] (by decide) (by decide)

/-- C10: when a metric column is literally named `timestamps`, the
reshaper's output maps the key `timestamps` to the formatted timestamp
strings — which differ from the column's numeric values on any non-empty
Table — so the column's data is shadowed and absent under its key. -/
theorem timestamps_column_shadowed (df : DF)
    (hts : "timestamps" ∈ metricCols df) (hne : df.rows ≠ []) :
    lookupD (process_historical_metrics df) "timestamps" = some (tsSeq df) ∧
    tsSeq df ≠ seqOf df "timestamps" := by
  refine ⟨phm_lookup_timestamps df, ?_⟩
  cases hr : df.rows with
  | nil => exact absurd hr hne
  | cons r rs =>
    unfold tsSeq seqOf
    rw [hr, List.map_cons, List.map_cons]
    intro hcontra
    have hhead := List.head_eq_of_cons_eq hcontra
    exact Cell.noConfusion hhead

/-- Witness for C10 at the concrete table `dfShadow`. -/
theorem timestamps_column_shadowed_witness :
    lookupD (process_historical_metrics dfShadow) "timestamps" =
      some (tsSeq dfShadow) ∧
    tsSeq dfShadow ≠ seqOf dfShadow "timestamps" :=
  timestamps_column_shadowed dfShadow (by decide) (by decide)

end Echony
